import Mathlib

/-!
Verification of the forecast-reconciliation pipeline of the JupyterCopper
repository (`src/daily_prediction_system.py`, `src/data_utils.py`).

Modelling conventions:
* Dates are naturals counting days from an epoch that falls on a Monday, so
  the Python `date.weekday()` (Monday = 0 .. Sunday = 6) is `d % 7`.
* Prices are exact rationals `ℚ`; where IEEE-754 special values matter
  (the RSI gain/loss ratio) we use `FloatQ`, rationals extended with
  `±∞` and `nan` carrying the IEEE semantics of the operations involved.
* The `daily_predictions` table is a `List PredRow`; the SQL
  `INSERT .. ON CONFLICT .. DO UPDATE` of `save_predictions` becomes
  `upsertPrediction`, and the `UPDATE .. FROM` of `update_actual_prices`
  becomes `updateActualPrices` with the `lme_copper_futures` table modelled
  as a partial map `(contract_month, trade_date) → Option close`.
-/

namespace DailyPrediction

/-- A row of the `daily_predictions` table (columns of the
`CREATE TABLE daily_predictions` statement; the `id`/`created_at`
bookkeeping columns are omitted). -/
structure PredRow where
  predictionDate : Nat
  targetDate : Nat
  contractMonth : Nat
  daysAhead : Nat
  modelName : String
  predictedPrice : ℚ
  actualPrice : Option ℚ
  predictionError : Option ℚ
  confidenceLower : Option ℚ
  confidenceUpper : Option ℚ
  modelVersion : String
  featuresUsed : List String
deriving DecidableEq, Repr

/-- The values supplied by `save_predictions` to the
`INSERT INTO daily_predictions (...) VALUES (...)` statement. -/
structure NewPred where
  predictionDate : Nat
  targetDate : Nat
  contractMonth : Nat
  daysAhead : Nat
  modelName : String
  predictedPrice : ℚ
  modelVersion : String
  featuresUsed : List String
deriving DecidableEq, Repr

/-- The `UNIQUE(prediction_date, target_date, contract_month, model_name)`
constraint: does the stored row conflict with the incoming values? -/
def sameKey (r : PredRow) (n : NewPred) : Bool :=
  r.predictionDate == n.predictionDate && r.targetDate == n.targetDate &&
    r.contractMonth == n.contractMonth && r.modelName == n.modelName

/-- The row created by a non-conflicting `INSERT`: columns not listed in the
insert column list (`actual_price`, `prediction_error`, the confidence
interval bounds) start as SQL `NULL`. -/
def newRow (n : NewPred) : PredRow :=
  { predictionDate := n.predictionDate
    targetDate := n.targetDate
    contractMonth := n.contractMonth
    daysAhead := n.daysAhead
    modelName := n.modelName
    predictedPrice := n.predictedPrice
    actualPrice := none
    predictionError := none
    confidenceLower := none
    confidenceUpper := none
    modelVersion := n.modelVersion
    featuresUsed := n.featuresUsed }

/-- `INSERT .. ON CONFLICT (prediction_date, target_date, contract_month,
model_name) DO UPDATE SET predicted_price = EXCLUDED.predicted_price,
model_version = EXCLUDED.model_version, features_used =
EXCLUDED.features_used` from `save_predictions`.  On conflict exactly the
three listed columns of the existing row are replaced; otherwise the new
row is appended. -/
def upsertPrediction (store : List PredRow) (n : NewPred) : List PredRow :=
  if store.any (fun r => sameKey r n) then
    store.map (fun r =>
      if sameKey r n then
        { r with predictedPrice := n.predictedPrice
                 modelVersion := n.modelVersion
                 featuresUsed := n.featuresUsed }
      else r)
  else store ++ [newRow n]

/-- The weekend adjustment loop of `save_predictions`:
`while target_date.weekday() >= 5: target_date += timedelta(days=1)`.
Day numbers are Monday-based, so `weekday = d % 7` and the loop body runs
while `d % 7 ≥ 5` (Saturday = 5, Sunday = 6). -/
def adjustTargetDate (d : Nat) : Nat :=
  if d % 7 ≥ 5 then adjustTargetDate (d + 1) else d
termination_by (if d % 7 = 5 then 2 else if d % 7 = 6 then 1 else 0 : Nat)
decreasing_by
  rename_i hge
  rcases Nat.lt_or_ge (d % 7) 6 with h6 | h6
  · have h5 : d % 7 = 5 := by omega
    have : (d + 1) % 7 = 6 := by omega
    simp [h5, this]
  · have h6e : d % 7 = 6 := by
      have := Nat.mod_lt d (show 0 < 7 by norm_num)
      omega
    have : (d + 1) % 7 = 0 := by omega
    simp [h6e, this]

/-- The double loop of `save_predictions`: for every model and every
`days_ahead = 1 .. len(pred_list)` it builds the row values fed to the
upsert, with `target_date = prediction_date + days_ahead` weekend-adjusted,
`contract_month = self.target_contract`, `model_version = 'v1.0'` and
`features_used = self.feature_columns`. -/
def savePredRows (predictionDate contractMonth : Nat) (features : List String)
    (preds : List (String × List ℚ)) : List NewPred :=
  preds.flatMap (fun p =>
    p.2.enum.map (fun iq =>
      { predictionDate := predictionDate
        targetDate := adjustTargetDate (predictionDate + (iq.1 + 1))
        contractMonth := contractMonth
        daysAhead := iq.1 + 1
        modelName := p.1
        predictedPrice := iq.2
        modelVersion := "v1.0"
        featuresUsed := features }))

/-- `save_predictions`: execute the upsert for every generated row, in
iteration order, against the stored table. -/
def savePredictions (store : List PredRow) (predictionDate contractMonth : Nat)
    (features : List String) (preds : List (String × List ℚ)) : List PredRow :=
  (savePredRows predictionDate contractMonth features preds).foldl
    upsertPrediction store

/-- One row's treatment by the reconciliation statement of
`update_actual_prices`:
`UPDATE daily_predictions dp SET actual_price = f.close_price,
prediction_error = ABS(dp.predicted_price - f.close_price)
FROM lme_copper_futures f WHERE dp.target_date = f.trade_date AND
dp.contract_month = f.contract_month AND dp.actual_price IS NULL AND
f.close_price IS NOT NULL`.  `futures c d` is the close price of the
futures row with `contract_month = c`, `trade_date = d` (`none` covers both
a missing row and a SQL `NULL` close). -/
def reconcileRow (futures : Nat → Nat → Option ℚ) (r : PredRow) : PredRow :=
  match r.actualPrice, futures r.contractMonth r.targetDate with
  | none, some close =>
      { r with actualPrice := some close
               predictionError := some |r.predictedPrice - close| }
  | _, _ => r

/-- `update_actual_prices` applied to the whole stored table. -/
def updateActualPrices (futures : Nat → Nat → Option ℚ)
    (store : List PredRow) : List PredRow :=
  store.map (reconcileRow futures)

/-- A resolved forecast row as seen by the `evaluate_model_performance`
query, which filters `WHERE actual_price IS NOT NULL` (and by date window
and contract month) before grouping. -/
structure ResolvedRow where
  predictedPrice : ℚ
  actualPrice : ℚ
  predictionError : ℚ
deriving DecidableEq, Repr

/-- A SQL scalar expression of the `evaluate_model_performance` SELECT
list, transcribed constructor-for-token from the query text: column
references, numeric literals, `COUNT(*)`, the `AVG` aggregate, the
`SQRT`/`ABS` functions, arithmetic and comparison operators, `AND`, a
two-`WHEN` `CASE ... ELSE ... END`, and `LAG(arg) OVER (PARTITION BY ...
ORDER BY ...)` window calls. -/
inductive SqlExpr where
  | col : String → SqlExpr
  | num : ℚ → SqlExpr
  | countStar : SqlExpr
  | avg : SqlExpr → SqlExpr
  | sqrtFn : SqlExpr → SqlExpr
  | absFn : SqlExpr → SqlExpr
  | mul : SqlExpr → SqlExpr → SqlExpr
  | div : SqlExpr → SqlExpr → SqlExpr
  | gt : SqlExpr → SqlExpr → SqlExpr
  | lt : SqlExpr → SqlExpr → SqlExpr
  | and : SqlExpr → SqlExpr → SqlExpr
  | caseWhen2 : SqlExpr → SqlExpr → SqlExpr → SqlExpr → SqlExpr → SqlExpr
  | lag : SqlExpr → List String → List String → SqlExpr

/-- Does the expression contain a window-function call (`LAG ... OVER`)? -/
def hasWindowCall : SqlExpr → Bool
  | SqlExpr.col _ => false
  | SqlExpr.num _ => false
  | SqlExpr.countStar => false
  | SqlExpr.avg e => hasWindowCall e
  | SqlExpr.sqrtFn e => hasWindowCall e
  | SqlExpr.absFn e => hasWindowCall e
  | SqlExpr.mul a b => hasWindowCall a || hasWindowCall b
  | SqlExpr.div a b => hasWindowCall a || hasWindowCall b
  | SqlExpr.gt a b => hasWindowCall a || hasWindowCall b
  | SqlExpr.lt a b => hasWindowCall a || hasWindowCall b
  | SqlExpr.and a b => hasWindowCall a || hasWindowCall b
  | SqlExpr.caseWhen2 c1 t1 c2 t2 e =>
      hasWindowCall c1 || hasWindowCall t1 || hasWindowCall c2 ||
        hasWindowCall t2 || hasWindowCall e
  | SqlExpr.lag _ _ _ => true

/-- Does some aggregate call's argument contain a window call?
PostgreSQL's parse analysis rejects any query in which this holds, with
`aggregate function calls cannot contain window function calls` — before
the query touches any data. -/
def aggContainsWindow : SqlExpr → Bool
  | SqlExpr.col _ => false
  | SqlExpr.num _ => false
  | SqlExpr.countStar => false
  | SqlExpr.avg e => hasWindowCall e || aggContainsWindow e
  | SqlExpr.sqrtFn e => aggContainsWindow e
  | SqlExpr.absFn e => aggContainsWindow e
  | SqlExpr.mul a b => aggContainsWindow a || aggContainsWindow b
  | SqlExpr.div a b => aggContainsWindow a || aggContainsWindow b
  | SqlExpr.gt a b => aggContainsWindow a || aggContainsWindow b
  | SqlExpr.lt a b => aggContainsWindow a || aggContainsWindow b
  | SqlExpr.and a b => aggContainsWindow a || aggContainsWindow b
  | SqlExpr.caseWhen2 c1 t1 c2 t2 e =>
      aggContainsWindow c1 || aggContainsWindow t1 || aggContainsWindow c2 ||
        aggContainsWindow t2 || aggContainsWindow e
  | SqlExpr.lag e _ _ => aggContainsWindow e

/-- `LAG(actual_price) OVER (PARTITION BY model_name ORDER BY
target_date)` as it appears four times in the directional-accuracy
aggregate. -/
def lagActual : SqlExpr :=
  SqlExpr.lag (SqlExpr.col "actual_price") ["model_name"] ["target_date"]

/-- `AVG(CASE WHEN (predicted_price > LAG(...)) AND (actual_price >
LAG(...)) THEN 1 WHEN (predicted_price < LAG(...)) AND (actual_price <
LAG(...)) THEN 1 ELSE 0 END) as directional_accuracy`. -/
def dirAccExpr : SqlExpr :=
  SqlExpr.avg (SqlExpr.caseWhen2
    (SqlExpr.and (SqlExpr.gt (SqlExpr.col "predicted_price") lagActual)
      (SqlExpr.gt (SqlExpr.col "actual_price") lagActual))
    (SqlExpr.num 1)
    (SqlExpr.and (SqlExpr.lt (SqlExpr.col "predicted_price") lagActual)
      (SqlExpr.lt (SqlExpr.col "actual_price") lagActual))
    (SqlExpr.num 1)
    (SqlExpr.num 0))

/-- `AVG(ABS(prediction_error)) as mae`. -/
def maeExpr : SqlExpr :=
  SqlExpr.avg (SqlExpr.absFn (SqlExpr.col "prediction_error"))

/-- `SQRT(AVG(prediction_error * prediction_error)) as rmse`. -/
def rmseExpr : SqlExpr :=
  SqlExpr.sqrtFn (SqlExpr.avg (SqlExpr.mul (SqlExpr.col "prediction_error")
    (SqlExpr.col "prediction_error")))

/-- `AVG(ABS(prediction_error / actual_price) * 100) as mape`. -/
def mapeExpr : SqlExpr :=
  SqlExpr.avg (SqlExpr.mul
    (SqlExpr.absFn (SqlExpr.div (SqlExpr.col "prediction_error")
      (SqlExpr.col "actual_price")))
    (SqlExpr.num 100))

/-- The SELECT list of the `evaluate_model_performance` query (its WHERE
filter and GROUP BY are irrelevant here: parse analysis fails on the
SELECT list before any data is read). -/
def performanceSelectList : List SqlExpr :=
  [SqlExpr.col "model_name", SqlExpr.col "days_ahead", SqlExpr.countStar,
   maeExpr, rmseExpr, mapeExpr, dirAccExpr]

/-- PostgreSQL's parse analysis of the performance query: it errors when
any SELECT expression nests a window call inside an aggregate argument,
and only otherwise would the query proceed to execution. -/
def analyzePerformanceQuery : Except String Unit :=
  if performanceSelectList.any aggContainsWindow then
    Except.error "aggregate function calls cannot contain window function calls"
  else Except.ok ()

/-- One entry of the dictionary `evaluate_model_performance` returns:
model name, days_ahead, and the metrics row. -/
structure PerfMetrics where
  mae : ℚ
  rmse : ℚ
  mape : ℚ
  directionalAccuracy : ℚ
  totalPredictions : Nat
deriving DecidableEq, Repr

/-- `evaluate_model_performance`: `pd.read_sql_query` submits the query,
PostgreSQL runs parse analysis first, and only a successfully analyzed
query is executed against the stored data; an analysis error raises in
Python and the surrounding `try/except` returns the empty dictionary.
The dynamic semantics the query would have if it were valid is left as
the parameter `exec` — it is never consulted, because analysis of this
query fails before execution, independently of the data. -/
def evaluateModelPerformance
    (exec : List PredRow → List (String × Nat × PerfMetrics))
    (store : List PredRow) : List (String × Nat × PerfMetrics) :=
  match analyzePerformanceQuery with
  | Except.ok _ => exec store
  | Except.error _ => []

/-- An arbitrary execution semantics used to instantiate
`evaluateModelPerformance` at concrete inputs. -/
def sampleExec : List PredRow → List (String × Nat × PerfMetrics) :=
  fun _ => []

/-- The spec's §4.6 performance contract, for comparison: mape is the mean
of `|error / actual| × 100` over only the rows with nonzero actual price,
while mae, the rmse radicand and the sample count range over all rows. -/
def specEvaluateGroup (rows : List ResolvedRow) : Option (Nat × ℚ × ℚ × ℚ) :=
  if rows = [] then none
  else
    let mapeRows := rows.filter (fun r => r.actualPrice ≠ 0)
    some (rows.length,
      ((rows.map (fun r => |r.predictionError|)).sum) / rows.length,
      ((rows.map (fun r => r.predictionError * r.predictionError)).sum) /
        rows.length,
      ((mapeRows.map (fun r => |r.predictionError / r.actualPrice| * 100)).sum) /
        mapeRows.length)

/-- One consecutive pair's outcome under the spec's §4.6 directional
accuracy: `none` when either `predicted − previous actual` or
`actual − previous actual` is zero (a tie, excluded), otherwise whether the
two signs match. -/
def specPairOutcome (prevActual predicted actual : ℚ) : Option Bool :=
  if predicted = prevActual ∨ actual = prevActual then none
  else some (decide ((predicted > prevActual ∧ actual > prevActual) ∨
    (predicted < prevActual ∧ actual < prevActual)))

/-- Outcomes of all consecutive-by-target-date pairs of a group. -/
def specPairOutcomes : List ResolvedRow → List (Option Bool)
  | [] => []
  | [_] => []
  | r :: s :: rest =>
      specPairOutcome r.actualPrice s.predictedPrice s.actualPrice ::
        specPairOutcomes (s :: rest)

/-- The spec's §4.6 directional accuracy: matching pairs over non-tie
pairs, `none` (null/excluded) when every evaluated pair is a tie. -/
def specDirectionalAccuracy (rows : List ResolvedRow) : Option ℚ :=
  let outcomes := (specPairOutcomes rows).filterMap id
  if outcomes.isEmpty then none
  else some ((outcomes.countP id : ℚ) / outcomes.length)

/-- The per-model prediction collection of `make_predictions`: each model
block is wrapped in its own `try/except`, so an adapter either raises
(`none`, the model is logged and skipped) or returns its forecast list,
which is stored under the model's name unchanged — with no emptiness or
NaN check. -/
def modelPredictions {α : Type} (adapters : List (String × Option (List α))) :
    List (String × List α) :=
  adapters.filterMap (fun a =>
    match a.2 with
    | none => none
    | some l => some (a.1, l))

/-- The per-model values available at horizon step `i`
(`if i < len(pred_list): day_predictions.append(pred_list[i])`). -/
def dayVals (preds : List (String × List ℚ)) (i : Nat) : List ℚ :=
  preds.filterMap (fun p => p.2.get? i)

/-- The ensemble loop of `make_predictions`: for each step
`i in range(prediction_horizon)` append `np.mean(day_predictions)` when
any model has a value at step `i`, appending nothing otherwise. -/
def ensembleValues (preds : List (String × List ℚ)) (horizon : Nat) : List ℚ :=
  (List.range horizon).filterMap (fun i =>
    let day := dayVals preds i
    if day.isEmpty then none else some (day.sum / day.length))

/-- `make_predictions` after the individual model blocks: if any model
produced predictions, the ensemble values are appended under the name
`ensemble` when they are nonempty. -/
def makePredictions (adapters : List (String × Option (List ℚ)))
    (horizon : Nat) : List (String × List ℚ) :=
  let preds := modelPredictions adapters
  if preds.isEmpty then preds
  else
    let ev := ensembleValues preds horizon
    if ev.isEmpty then preds else preds ++ [("ensemble", ev)]

/-- `get_spread_data`: `spreadRows` is the joined 1M/3M query result
(`trade_date`, `spread_1m_3m`) restricted to the date range.  If the join
is empty the result is `0.0` for every date; otherwise each requested date
gets the joined spread when present at that exact date and `0.0`
otherwise. -/
def getSpreadData (spreadRows : List (Nat × ℚ)) (dates : List Nat) : List ℚ :=
  if spreadRows.isEmpty then dates.map (fun _ => 0)
  else dates.map (fun d =>
    match spreadRows.lookup d with
    | some v => v
    | none => 0)

/-- The spec's §4.1 spread rule, for comparison: a date missing from the
joined spread is forward-filled from the last known spread value, or `0`
when no prior value exists yet. -/
def specSpreadFill (last : Option ℚ) (spreadRows : List (Nat × ℚ)) :
    List Nat → List ℚ
  | [] => []
  | d :: rest =>
      match spreadRows.lookup d with
      | some v => v :: specSpreadFill (some v) spreadRows rest
      | none => (last.getD 0) :: specSpreadFill last spreadRows rest

/-- The spec's §4.1 spread feature over a date list. -/
def specSpreadData (spreadRows : List (Nat × ℚ)) (dates : List Nat) : List ℚ :=
  specSpreadFill none spreadRows dates

/-- Rationals extended with the IEEE-754 special values produced by the
pandas RSI computation (`rs = gain / loss` is float division, so
`positive/0 = +∞`, `0/0 = NaN`). -/
inductive FloatQ where
  | fin : ℚ → FloatQ
  | posInf : FloatQ
  | negInf : FloatQ
  | nan : FloatQ
deriving DecidableEq, Repr

/-- IEEE negation. -/
def FloatQ.neg : FloatQ → FloatQ
  | fin q => fin (-q)
  | posInf => negInf
  | negInf => posInf
  | nan => nan

/-- IEEE addition (zero signs ignored, irrelevant here). -/
def FloatQ.add : FloatQ → FloatQ → FloatQ
  | nan, _ => nan
  | _, nan => nan
  | fin a, fin b => fin (a + b)
  | posInf, negInf => nan
  | negInf, posInf => nan
  | posInf, _ => posInf
  | _, posInf => posInf
  | negInf, _ => negInf
  | _, negInf => negInf

/-- IEEE subtraction. -/
def FloatQ.sub (a b : FloatQ) : FloatQ := a.add b.neg

/-- IEEE division: a nonzero finite numerator over zero gives a signed
infinity, `0/0` gives NaN, finite over infinite gives `0`. -/
def FloatQ.div : FloatQ → FloatQ → FloatQ
  | nan, _ => nan
  | _, nan => nan
  | fin a, fin b =>
      if b = 0 then
        if a = 0 then nan else if a > 0 then posInf else negInf
      else fin (a / b)
  | fin _, posInf => fin 0
  | fin _, negInf => fin 0
  | posInf, fin b => if b ≥ 0 then posInf else negInf
  | negInf, fin b => if b ≥ 0 then negInf else posInf
  | posInf, _ => nan
  | negInf, _ => nan

/-- `delta.where(delta > 0, 0)` at position `j` of the price series: the
positive part of the day-over-day difference, `0` at position `0` where
`diff()` is NaN (NaN compares false, so `where` substitutes `0`). -/
def gainAt (ps : List ℚ) : Nat → ℚ
  | 0 => 0
  | j + 1 =>
      match ps.get? (j + 1), ps.get? j with
      | some a, some b => max (a - b) 0
      | _, _ => 0

/-- `(-delta.where(delta < 0, 0))` at position `j`: the positive part of
the day-over-day drop, `0` at position `0`. -/
def lossAt (ps : List ℚ) : Nat → ℚ
  | 0 => 0
  | j + 1 =>
      match ps.get? (j + 1), ps.get? j with
      | some a, some b => max (b - a) 0
      | _, _ => 0

/-- `gain = (delta.where(delta > 0, 0)).rolling(window=14).mean()` at
position `i` (defined once the trailing window `i-13 .. i` exists). -/
def avgGainAt (ps : List ℚ) (i : Nat) : ℚ :=
  (((List.range 14).map (fun k => gainAt ps (i - k))).sum) / 14

/-- `loss = (-delta.where(delta < 0, 0)).rolling(window=14).mean()` at
position `i`. -/
def avgLossAt (ps : List ℚ) (i : Nat) : ℚ :=
  (((List.range 14).map (fun k => lossAt ps (i - k))).sum) / 14

/-- `rs = gain / loss; rsi = 100 - (100 / (1 + rs))` in float arithmetic,
from the 14-day average gain and loss. -/
def rsiFromAvg (gain loss : ℚ) : FloatQ :=
  FloatQ.sub (FloatQ.fin 100)
    (FloatQ.div (FloatQ.fin 100)
      (FloatQ.add (FloatQ.fin 1) (FloatQ.div (FloatQ.fin gain) (FloatQ.fin loss))))

/-- The `rsi` column of `create_features` / `calculate_technical_indicators`
at position `i` of the price series. -/
def rsiAt (ps : List ℚ) (i : Nat) : FloatQ :=
  rsiFromAvg (avgGainAt ps i) (avgLossAt ps i)

/-- A sample `lme_copper_futures` close-price map used to instantiate the
reconciliation theorem: the 3M contract closed at `90` on day `10`. -/
def sampleFutures : Nat → Nat → Option ℚ :=
  fun c d => if c = 3 ∧ d = 10 then some 90 else none

/-! ## Theorems -/

/-- Closed form of the weekend-adjustment loop: a Saturday moves two days
to the Monday after it, a Sunday one day, and a weekday is unchanged. -/
theorem adjustTargetDate_eq (d : Nat) :
    adjustTargetDate d =
      if d % 7 = 5 then d + 2 else if d % 7 = 6 then d + 1 else d := by
  have hlt : d % 7 < 7 := Nat.mod_lt _ (by norm_num)
  rcases Nat.lt_or_ge (d % 7) 5 with h | h
  · rw [adjustTargetDate, if_neg (by omega), if_neg (by omega),
      if_neg (by omega)]
  · have h56 : d % 7 = 5 ∨ d % 7 = 6 := by omega
    rcases h56 with h5 | h6
    · have e1 : (d + 1) % 7 = 6 := by omega
      have e2 : (d + 1 + 1) % 7 = 0 := by omega
      rw [adjustTargetDate, if_pos (by omega), adjustTargetDate,
        if_pos (by omega), adjustTargetDate, if_neg (by omega), if_pos h5]
    · have e1 : (d + 1) % 7 = 0 := by omega
      rw [adjustTargetDate, if_pos (by omega), adjustTargetDate,
        if_neg (by omega), if_neg (by omega), if_pos h6]

/-- C6 (confirmed): for every issue date and horizon ≥ 1, the persisted
target date `adjustTargetDate (issue + horizon_days)` never falls on a
Saturday or Sunday (`weekday = d % 7 < 5`), and a raw target landing on a
Saturday (`% 7 = 5`) is shifted exactly to the following Monday
(two days later, `weekday 0`). -/
theorem target_date_never_weekend (p h : Nat) (hh : 1 ≤ h) :
    (adjustTargetDate (p + h)) % 7 < 5 ∧
      ((p + h) % 7 = 5 →
        adjustTargetDate (p + h) = p + h + 2 ∧ (p + h + 2) % 7 = 0) := by
  have he := adjustTargetDate_eq (p + h)
  split_ifs at he with h5 h6
  · rw [he]; exact ⟨by omega, fun _ => ⟨rfl, by omega⟩⟩
  · rw [he]; exact ⟨by omega, fun hc => absurd hc h5⟩
  · rw [he]
    constructor
    · have : (p + h) % 7 < 7 := Nat.mod_lt _ (by norm_num)
      omega
    · exact fun hc => absurd hc h5

/-- Witness for C6: issuing on a Monday (day 0) with horizon 5 lands on
day 5, a Saturday, which is shifted to day 7, the following Monday. -/
theorem target_date_never_weekend_witness :
    (adjustTargetDate 5) % 7 < 5 ∧
      (5 % 7 = 5 → adjustTargetDate 5 = 7 ∧ 7 % 7 = 0) :=
  target_date_never_weekend 0 5 (by decide)

/-- C7 (confirmed): every row generated by `save_predictions` carries
`prediction_date`, the fixed contract month and the weekend-adjusted
`target_date` of its `days_ahead` — so two distinct `days_ahead` whose
adjusted targets coincide address the same unique key
`(prediction_date, target_date, contract_month, model_name)`.  Concretely,
issuing on a Thursday (day 3), horizons 2, 3 and 4 all map to the
following Monday (day 7): the stored Monday row keeps the first writer's
`days_ahead = 2` while its `predicted_price` is the last writer's value
(horizon 4), and only 3 < 5 rows remain for the 5-day horizon. -/
theorem weekend_collision_single_key (p c : Nat) (fs : List String)
    (preds : List (String × List ℚ)) (n : NewPred)
    (hn : n ∈ savePredRows p c fs preds) :
    (n.predictionDate = p ∧ n.contractMonth = c ∧
      n.targetDate = adjustTargetDate (p + n.daysAhead)) ∧
    savePredictions [] 3 3 ["f"] [("m", [10, 20, 30, 40, 50])] =
      [⟨3, 4, 3, 1, "m", 10, none, none, none, none, "v1.0", ["f"]⟩,
       ⟨3, 7, 3, 2, "m", 40, none, none, none, none, "v1.0", ["f"]⟩,
       ⟨3, 8, 3, 5, "m", 50, none, none, none, none, "v1.0", ["f"]⟩] ∧
    (savePredictions [] 3 3 ["f"] [("m", [10, 20, 30, 40, 50])]).length < 5 := by
  have h4 : adjustTargetDate 4 = 4 := by rw [adjustTargetDate_eq]; norm_num
  have h5 : adjustTargetDate 5 = 7 := by rw [adjustTargetDate_eq]; norm_num
  have h6 : adjustTargetDate 6 = 7 := by rw [adjustTargetDate_eq]; norm_num
  have h7 : adjustTargetDate 7 = 7 := by rw [adjustTargetDate_eq]; norm_num
  have h8 : adjustTargetDate 8 = 8 := by rw [adjustTargetDate_eq]; norm_num
  have hrows : savePredRows 3 3 ["f"] [("m", [10, 20, 30, 40, 50])] =
      [⟨3, adjustTargetDate 4, 3, 1, "m", 10, "v1.0", ["f"]⟩,
       ⟨3, adjustTargetDate 5, 3, 2, "m", 20, "v1.0", ["f"]⟩,
       ⟨3, adjustTargetDate 6, 3, 3, "m", 30, "v1.0", ["f"]⟩,
       ⟨3, adjustTargetDate 7, 3, 4, "m", 40, "v1.0", ["f"]⟩,
       ⟨3, adjustTargetDate 8, 3, 5, "m", 50, "v1.0", ["f"]⟩] := rfl
  have hsave : savePredictions [] 3 3 ["f"] [("m", [10, 20, 30, 40, 50])] =
      [⟨3, 4, 3, 1, "m", 10, none, none, none, none, "v1.0", ["f"]⟩,
       ⟨3, 7, 3, 2, "m", 40, none, none, none, none, "v1.0", ["f"]⟩,
       ⟨3, 8, 3, 5, "m", 50, none, none, none, none, "v1.0", ["f"]⟩] := by
    unfold savePredictions
    rw [hrows, h4, h5, h6, h7, h8]
    decide
  refine ⟨?_, hsave, by rw [hsave]; decide⟩
  simp only [savePredRows, List.mem_flatMap, List.mem_map] at hn
  obtain ⟨pr, hpr, iq, hiq, rfl⟩ := hn
  exact ⟨rfl, rfl, rfl⟩

/-- Witness for C7 at a one-element forecast list. -/
theorem weekend_collision_single_key_witness :
    ((3 : Nat) = 3 ∧ (3 : Nat) = 3 ∧
      adjustTargetDate 4 = adjustTargetDate (3 + 1)) ∧
    savePredictions [] 3 3 ["f"] [("m", [10, 20, 30, 40, 50])] =
      [⟨3, 4, 3, 1, "m", 10, none, none, none, none, "v1.0", ["f"]⟩,
       ⟨3, 7, 3, 2, "m", 40, none, none, none, none, "v1.0", ["f"]⟩,
       ⟨3, 8, 3, 5, "m", 50, none, none, none, none, "v1.0", ["f"]⟩] ∧
    (savePredictions [] 3 3 ["f"] [("m", [10, 20, 30, 40, 50])]).length < 5 :=
  weekend_collision_single_key 3 3 ["f"] [("m", [10])]
    ⟨3, adjustTargetDate 4, 3, 1, "m", 10, "v1.0", ["f"]⟩
    (List.mem_singleton.mpr rfl)

/-- C1 (amended): the upsert of `save_predictions` overwrites the stored
`predicted_price` (together with `model_version` and `features_used`)
whenever the unique key conflicts — also on rows that are already
resolved — while `actual_price`, `prediction_error`, `days_ahead`, the
key columns and the confidence bounds are never modified; a
non-conflicting upsert only appends. -/
theorem upsert_frame (store : List PredRow) (n : NewPred) (i : Nat)
    (hi : i < store.length) :
    ∃ r', (upsertPrediction store n).get? i = some r' ∧
      r'.actualPrice = (store.get ⟨i, hi⟩).actualPrice ∧
      r'.predictionError = (store.get ⟨i, hi⟩).predictionError ∧
      r'.predictionDate = (store.get ⟨i, hi⟩).predictionDate ∧
      r'.targetDate = (store.get ⟨i, hi⟩).targetDate ∧
      r'.contractMonth = (store.get ⟨i, hi⟩).contractMonth ∧
      r'.daysAhead = (store.get ⟨i, hi⟩).daysAhead ∧
      r'.modelName = (store.get ⟨i, hi⟩).modelName ∧
      r'.confidenceLower = (store.get ⟨i, hi⟩).confidenceLower ∧
      r'.confidenceUpper = (store.get ⟨i, hi⟩).confidenceUpper ∧
      (sameKey (store.get ⟨i, hi⟩) n = true →
        r'.predictedPrice = n.predictedPrice) := by
  by_cases hany : store.any (fun r => sameKey r n) = true
  · rw [upsertPrediction, if_pos hany]
    refine ⟨_, by rw [List.get?_map, List.get?_eq_get hi, Option.map_some'], ?_⟩
    by_cases hk : sameKey (store.get ⟨i, hi⟩) n = true
    · rw [if_pos hk]
      exact ⟨rfl, rfl, rfl, rfl, rfl, rfl, rfl, rfl, rfl, fun _ => rfl⟩
    · rw [if_neg hk]
      exact ⟨rfl, rfl, rfl, rfl, rfl, rfl, rfl, rfl, rfl,
        fun hc => absurd hc hk⟩
  · rw [upsertPrediction, if_neg hany]
    refine ⟨_, by rw [List.get?_append (by simpa using hi),
      List.get?_eq_get hi], ?_⟩
    refine ⟨rfl, rfl, rfl, rfl, rfl, rfl, rfl, rfl, rfl, fun hc => ?_⟩
    exact absurd (List.any_eq_true.mpr ⟨store.get ⟨i, hi⟩,
      List.get_mem store _ _, hc⟩) hany

/-- Witness for C1's frame theorem at a one-row store whose row conflicts
with the incoming forecast. -/
theorem upsert_frame_witness :
    ∃ r', (upsertPrediction
        [⟨1, 10, 3, 1, "m", 100, some 90, some 10, none, none, "v1.0", ["f"]⟩]
        ⟨1, 10, 3, 1, "m", 200, "v2.0", ["g"]⟩).get? 0 = some r' ∧
      r'.actualPrice = some 90 ∧
      r'.predictionError = some 10 ∧
      r'.predictionDate = 1 ∧
      r'.targetDate = 10 ∧
      r'.contractMonth = 3 ∧
      r'.daysAhead = 1 ∧
      r'.modelName = "m" ∧
      r'.confidenceLower = none ∧
      r'.confidenceUpper = none ∧
      (sameKey ⟨1, 10, 3, 1, "m", 100, some 90, some 10, none, none, "v1.0",
          ["f"]⟩ ⟨1, 10, 3, 1, "m", 200, "v2.0", ["g"]⟩ = true →
        r'.predictedPrice = 200) :=
  upsert_frame
    [⟨1, 10, 3, 1, "m", 100, some 90, some 10, none, none, "v1.0", ["f"]⟩]
    ⟨1, 10, 3, 1, "m", 200, "v2.0", ["g"]⟩ 0 (by decide)

/-- Counterexample to C1 as stated: re-issuing against an already resolved
row (`actual_price = 90`) replaces the stored `predicted_price` `100` by
the new value `200`, so the stored prediction does not stay unchanged
after resolution. -/
theorem upsert_overwrites_resolved_prediction :
    upsertPrediction
        [⟨1, 10, 3, 1, "m", 100, some 90, some 10, none, none, "v1.0", ["f"]⟩]
        ⟨1, 10, 3, 1, "m", 200, "v2.0", ["g"]⟩ =
      [⟨1, 10, 3, 1, "m", 200, some 90, some 10, none, none, "v2.0", ["g"]⟩] ∧
    (200 : ℚ) ≠ 100 := by decide

/-- A row of `reconcileRow` keeps its outcome on a second pass: resolution
happens at most once and re-running reconciliation is a no-op. -/
theorem reconcileRow_idem (futures : Nat → Nat → Option ℚ) (r : PredRow) :
    reconcileRow futures (reconcileRow futures r) = reconcileRow futures r := by
  rcases ha : r.actualPrice with _ | a
  · rcases hf : futures r.contractMonth r.targetDate with _ | c
    · simp [reconcileRow, ha, hf]
    · simp [reconcileRow, ha, hf]
  · simp [reconcileRow, ha]

/-- C2 (confirmed): `update_actual_prices` maps each stored row through
the reconciliation join: an unresolved row whose `(contract_month,
target_date)` has a realized close gets `actual_price` set to that close
and `prediction_error` to `|predicted − close|`; an unresolved row with
no matching observation and an already resolved row are returned
unchanged; and a second run on the result changes nothing. -/
theorem update_actual_prices_spec (futures : Nat → Nat → Option ℚ)
    (store : List PredRow) (i : Nat) (hi : i < store.length) :
    (updateActualPrices futures store).get? i =
      some (reconcileRow futures (store.get ⟨i, hi⟩)) ∧
    (∀ r : PredRow, r.actualPrice = none →
      ∀ c, futures r.contractMonth r.targetDate = some c →
        reconcileRow futures r =
          { r with actualPrice := some c
                   predictionError := some |r.predictedPrice - c| }) ∧
    (∀ r : PredRow, r.actualPrice = none →
      futures r.contractMonth r.targetDate = none →
        reconcileRow futures r = r) ∧
    (∀ r : PredRow, ∀ a, r.actualPrice = some a →
        reconcileRow futures r = r) ∧
    updateActualPrices futures (updateActualPrices futures store) =
      updateActualPrices futures store := by
  refine ⟨?_, ?_, ?_, ?_, ?_⟩
  · rw [updateActualPrices, List.get?_map, List.get?_eq_get hi,
      Option.map_some']
  · intro r ha c hf
    simp [reconcileRow, ha, hf]
  · intro r ha hf
    simp [reconcileRow, ha, hf]
  · intro r a ha
    simp [reconcileRow, ha]
  · rw [updateActualPrices, updateActualPrices, List.map_map]
    exact List.map_congr_left (fun r _ => reconcileRow_idem futures r)

/-- Witness for C2: a single unresolved forecast for the 3M contract with
target day 10 and predicted price 100 is resolved against
`sampleFutures` (close 90 on day 10) to actual 90 and error 10. -/
theorem update_actual_prices_spec_witness :
    (updateActualPrices sampleFutures
        [⟨1, 10, 3, 1, "m", 100, none, none, none, none, "v1.0", ["f"]⟩]).get? 0 =
      some ⟨1, 10, 3, 1, "m", 100, some 90, some 10, none, none, "v1.0", ["f"]⟩ := by
  have h := (update_actual_prices_spec sampleFutures
    [⟨1, 10, 3, 1, "m", 100, none, none, none, none, "v1.0", ["f"]⟩]
    0 (by decide)).1
  have habs : |(100 : ℚ) - 90| = 10 := by norm_num
  simpa [reconcileRow, sampleFutures, habs] using h

/-- C3 (amended): no directional accuracy is ever computed by the
program.  The directional-accuracy SELECT expression nests the
`LAG(actual_price) OVER (...)` window call inside its `AVG` aggregate,
so PostgreSQL's parse analysis rejects the whole evaluation query before
reading any data, and `evaluate_model_performance` catches the raised
error and returns the empty mapping — for every stored table and under
every conceivable execution semantics of the query. -/
theorem directional_accuracy_never_computed
    (exec : List PredRow → List (String × Nat × PerfMetrics))
    (store : List PredRow) :
    aggContainsWindow dirAccExpr = true ∧
    analyzePerformanceQuery = Except.error
      "aggregate function calls cannot contain window function calls" ∧
    evaluateModelPerformance exec store = [] :=
  ⟨rfl, rfl, rfl⟩

/-- Counterexample to C3 as stated: two resolved forecasts whose single
consecutive pair moves strictly upward in both the predicted and the
actual signal — under the claim the computed directional accuracy would
be the defined tie-excluded fraction `1` — yet the program computes no
directional accuracy at all: its evaluation returns the empty mapping. -/
theorem directional_accuracy_no_value_cex :
    evaluateModelPerformance sampleExec
      [⟨1, 10, 3, 1, "m", 105, some 110, some 5, none, none, "v1.0", ["f"]⟩,
       ⟨1, 11, 3, 1, "m", 120, some 130, some 10, none, none, "v1.0",
        ["f"]⟩] = [] ∧
    specDirectionalAccuracy [⟨105, 110, 5⟩, ⟨120, 130, 10⟩] = some 1 := by
  refine ⟨rfl, ?_⟩
  norm_num [specDirectionalAccuracy, specPairOutcomes, specPairOutcome]
  constructor
  · simp
  · norm_num [List.filterMap_cons, List.countP_cons]

/-- C4 (amended): a stored forecast with `actual_price = 0` causes
nothing at all: the mape expression contains no window call and its
division is never evaluated, because the sibling directional-accuracy
expression already makes PostgreSQL reject the query at parse time
before any arithmetic, so the evaluation returns the empty mapping —
no mape, mae, rmse or sample count exists, with or without a zero row. -/
theorem zero_actual_price_no_metrics
    (exec : List PredRow → List (String × Nat × PerfMetrics))
    (store : List PredRow) (r : PredRow) (hr : r ∈ store)
    (h0 : r.actualPrice = some 0) :
    evaluateModelPerformance exec store = [] ∧
    hasWindowCall mapeExpr = false ∧
    aggContainsWindow dirAccExpr = true :=
  ⟨rfl, rfl, rfl⟩

/-- Witness for C4's amended theorem at a one-row store whose row is
resolved with actual price `0`. -/
theorem zero_actual_price_no_metrics_witness :
    evaluateModelPerformance sampleExec
      [⟨1, 10, 3, 1, "m", 100, some 0, some 100, none, none, "v1.0",
        ["f"]⟩] = [] ∧
    hasWindowCall mapeExpr = false ∧
    aggContainsWindow dirAccExpr = true :=
  zero_actual_price_no_metrics sampleExec
    [⟨1, 10, 3, 1, "m", 100, some 0, some 100, none, none, "v1.0", ["f"]⟩]
    ⟨1, 10, 3, 1, "m", 100, some 0, some 100, none, none, "v1.0", ["f"]⟩
    (List.mem_singleton.mpr rfl) rfl

/-- Counterexample to C4 as stated: a store with one ordinary resolved
row and one zero-actual row — under the claim mape would stay defined
over the remaining row while mae, rmse and the count cover both rows
(`count 2`, `mae 30`, `rmse² 1300`, `mape 100/9`, the values of the
spec's contract below) — yet the program produces no aggregates
whatsoever. -/
theorem mape_no_aggregates_cex :
    evaluateModelPerformance sampleExec
      [⟨1, 10, 3, 1, "m", 100, some 90, some 10, none, none, "v1.0", ["f"]⟩,
       ⟨1, 11, 3, 1, "m", 50, some 0, some 50, none, none, "v1.0",
        ["f"]⟩] = [] ∧
    specEvaluateGroup [⟨100, 90, 10⟩, ⟨50, 0, 50⟩] =
      some (2, 30, 1300, 100 / 9) := by
  refine ⟨rfl, ?_⟩
  have habs : |(1 : ℚ) / 9| = 1 / 9 := abs_of_nonneg (by norm_num)
  norm_num [specEvaluateGroup, List.filter, habs]
  intro h
  exact absurd h (by simp)

/-- A `filterMap` whose function is total on the list is a `map`. -/
theorem filterMap_eq_map_of_some {α β : Type} (f : α → Option β)
    (g : α → β) (l : List α) (h : ∀ x ∈ l, f x = some (g x)) :
    l.filterMap f = l.map g := by
  induction l with
  | nil => rfl
  | cons a t ih =>
    rw [List.filterMap_cons, h a (by simp), List.map_cons,
      ih (fun x hx => h x (by simp [hx]))]

/-- A model contributing a value at step `i` also contributes at every
earlier step, so the set of steps with available values is downward
closed. -/
theorem dayVals_mono (preds : List (String × List ℚ)) {i j : Nat}
    (hji : j ≤ i) (h : dayVals preds i ≠ []) : dayVals preds j ≠ [] := by
  refine fun hjnil => h ?_
  rw [dayVals, List.filterMap_eq_nil] at hjnil ⊢
  intro p hp
  have hj := hjnil p hp
  rw [List.get?_eq_none] at hj ⊢
  omega

/-- A `filterMap` over `range n` whose function is `none` from index `i`
on keeps at most `i` elements. -/
theorem filterMap_range_length_le {β : Type} (g : Nat → Option β)
    (i n : Nat) (h : ∀ j, i ≤ j → g j = none) :
    (List.filterMap g (List.range n)).length ≤ i := by
  induction n with
  | zero => simp
  | succ m ih =>
    rw [List.range_succ, List.filterMap_append]
    rcases Nat.lt_or_ge m i with hm | hm
    · have l1 : (List.filterMap g (List.range m)).length ≤ m := by
        have := List.length_filterMap_le g (List.range m)
        simpa using this
      have l2 : (List.filterMap g [m]).length ≤ 1 :=
        List.length_filterMap_le g [m]
      rw [List.length_append]
      omega
    · simp [List.filterMap_cons, h m hm, ih]

/-- The spec's §8 ensemble scenario: two models forecasting
`[100, 101, 102]` and `[102, 101, 100]` over horizon 3 combine to
`[101, 101, 101]`. -/
theorem ensemble_scenario_eval :
    ensembleValues [("a", [100, 101, 102]), ("b", [102, 101, 100])] 3 =
      [101, 101, 101] := by
  norm_num [ensembleValues, dayVals, List.range_succ, List.filterMap_cons]
  simp

/-- C5 (confirmed): at every horizon step `i` the ensemble value is the
arithmetic mean of exactly the per-model values available at step `i`
(shorter sequences are absent, not zero-filled); when no model has a
value at step `i` no ensemble value exists at that position; and the two
scenario models `[100, 101, 102]` and `[102, 101, 100]` combine to
`[101, 101, 101]`. -/
theorem ensemble_mean_per_step (preds : List (String × List ℚ))
    (horizon i : Nat) (hi : i < horizon) :
    (dayVals preds i ≠ [] →
      (ensembleValues preds horizon).get? i =
        some ((dayVals preds i).sum / (dayVals preds i).length)) ∧
    (dayVals preds i = [] →
      (ensembleValues preds horizon).get? i = none) ∧
    ensembleValues [("a", [100, 101, 102]), ("b", [102, 101, 100])] 3 =
      [101, 101, 101] := by
  refine ⟨?_, ?_, ensemble_scenario_eval⟩
  · intro hne
    have htake : (List.range horizon).take (i + 1) = List.range (i + 1) := by
      rw [List.take_range]
      congr 1
      omega
    have hsplit : List.range horizon =
        List.range (i + 1) ++ (List.range horizon).drop (i + 1) := by
      rw [← htake, List.take_append_drop]
    rw [ensembleValues, hsplit, List.filterMap_append]
    have hall : ∀ j ∈ List.range (i + 1),
        (fun k => if (dayVals preds k).isEmpty then none
          else some ((dayVals preds k).sum / (dayVals preds k).length)) j =
        some ((dayVals preds j).sum / (dayVals preds j).length) := by
      intro j hj
      have hj' : j ≤ i := Nat.lt_succ_iff.mp (List.mem_range.mp hj)
      have hne' : dayVals preds j ≠ [] := dayVals_mono preds hj' hne
      have hb : ¬(dayVals preds j).isEmpty = true := by
        simpa [List.isEmpty_iff] using hne'
      simp only [if_neg hb]
    rw [filterMap_eq_map_of_some _
      (fun j => (dayVals preds j).sum / (dayVals preds j).length) _ hall]
    rw [List.get?_append (by simp), List.get?_map,
      List.get?_range (Nat.lt_succ_self i), Option.map_some']
  · intro hempty
    rw [List.get?_eq_none, ensembleValues]
    apply filterMap_range_length_le
    intro j hij
    have hj : dayVals preds j = [] := by
      rw [dayVals, List.filterMap_eq_nil] at hempty ⊢
      intro p hp
      have := hempty p hp
      rw [List.get?_eq_none] at this ⊢
      omega
    simp [hj]

/-- Witness for C5: one model with the single-step forecast `[5]` makes
the ensemble at step 0 equal to `5`. -/
theorem ensemble_mean_per_step_witness :
    (ensembleValues [("a", [5])] 1).get? 0 = some 5 := by
  have h := (ensemble_mean_per_step [("a", [5])] 1 0 (by decide)).1 (by decide)
  have hd : dayVals [("a", [5])] 0 = [5] := by decide
  rw [hd] at h
  norm_num at h
  exact h

/-- C8 (amended): `get_spread_data` gives every requested trade date
whose exact date is present in the joined 1M/3M spread the joined value,
and `0.0` to every other date — regardless of whether an earlier spread
value exists; no forward fill takes place (the later
`fillna(ffill/bfill)` never fires because `0.0` is not `NaN`). -/
theorem spread_missing_date_zero (spreadRows : List (Nat × ℚ))
    (dates : List Nat) (i : Nat) (hi : i < dates.length) :
    (getSpreadData spreadRows dates).get? i =
      some ((spreadRows.lookup (dates.get ⟨i, hi⟩)).getD 0) := by
  rw [getSpreadData]
  by_cases hsp : spreadRows.isEmpty
  · rw [if_pos hsp]
    have hnil : spreadRows = [] := List.isEmpty_iff.mp hsp
    subst hnil
    rw [List.get?_map, List.get?_eq_get hi, Option.map_some']
    simp [List.lookup]
  · rw [if_neg hsp, List.get?_map, List.get?_eq_get hi, Option.map_some']
    rcases hl : spreadRows.lookup (dates.get ⟨i, hi⟩) with _ | v <;>
      simp [hl]

/-- Witness for C8's amended theorem: day 4 is absent from the joined
spread `[(3, 7)]`, so its feature value is `0`. -/
theorem spread_missing_date_zero_witness :
    (getSpreadData [(3, 7)] [3, 4]).get? 1 =
      some ((([(3, 7)] : List (Nat × ℚ)).lookup 4).getD 0) :=
  spread_missing_date_zero [(3, 7)] [3, 4] 1 (by decide)

/-- Counterexample to C8 as stated: with spread `5` known on day 0 and
day 1 missing from the join, the code yields `[5, 0]`, not the
forward-filled `[5, 5]` required by the claim. -/
theorem spread_no_forward_fill :
    getSpreadData [(0, 5)] [0, 1] = [5, 0] ∧
    specSpreadData [(0, 5)] [0, 1] = [5, 5] ∧
    getSpreadData [(0, 5)] [0, 1] ≠ specSpreadData [(0, 5)] [0, 1] := by
  decide

/-- A day's gain contribution `delta.where(delta > 0, 0)` is never
negative. -/
theorem gainAt_nonneg (ps : List ℚ) (j : Nat) : 0 ≤ gainAt ps j := by
  cases j with
  | zero => simp [gainAt]
  | succ m =>
    rw [gainAt]
    rcases h1 : ps.get? (m + 1) with _ | a <;>
      rcases h2 : ps.get? m with _ | b <;> simp [le_max_right]

/-- The 14-day average gain is never negative. -/
theorem avgGainAt_nonneg (ps : List ℚ) (i : Nat) : 0 ≤ avgGainAt ps i := by
  rw [avgGainAt]
  apply div_nonneg _ (by norm_num)
  apply List.sum_nonneg
  intro x hx
  obtain ⟨k, _, rfl⟩ := List.mem_map.mp hx
  exact gainAt_nonneg ps _

/-- C9 (confirmed): at a day whose trailing 14-day window has average
loss exactly `0` and nonzero average gain, the float chain
`100 - 100/(1 + gain/loss)` evaluates through `gain/0 = +∞` to exactly
`100`; when both window averages are `0`, `0/0 = NaN` propagates and the
RSI is `NaN` — a missing feature, never equal to any numeric value. -/
theorem rsi_zero_loss (ps : List ℚ) (i : Nat) (h14 : 13 ≤ i)
    (hi : i < ps.length) :
    (avgLossAt ps i = 0 → avgGainAt ps i ≠ 0 →
      rsiAt ps i = FloatQ.fin 100) ∧
    (avgGainAt ps i = 0 → avgLossAt ps i = 0 →
      rsiAt ps i = FloatQ.nan ∧ ∀ q : ℚ, rsiAt ps i ≠ FloatQ.fin q) := by
  constructor
  · intro hl hg
    have hpos : 0 < avgGainAt ps i :=
      lt_of_le_of_ne (avgGainAt_nonneg ps i) (Ne.symm hg)
    rw [rsiAt, rsiFromAvg, hl]
    simp [FloatQ.div, FloatQ.add, FloatQ.sub, FloatQ.neg, hpos, hg]
  · intro hg hl
    have hn : rsiAt ps i = FloatQ.nan := by
      rw [rsiAt, rsiFromAvg, hg, hl]
      simp [FloatQ.div, FloatQ.add, FloatQ.sub, FloatQ.neg]
    exact ⟨hn, fun q => by rw [hn]; simp⟩

/-- Witness for C9: a series rising by 1 for 15 days has zero average
loss and average gain 1, so its RSI at day 14 is exactly 100; a constant
series has both averages 0, so its RSI at day 14 is NaN. -/
theorem rsi_zero_loss_witness :
    rsiAt [0, 1, 2, 3, 4, 5, 6, 7, 8, 9, 10, 11, 12, 13, 14] 14 =
      FloatQ.fin 100 ∧
    rsiAt [5, 5, 5, 5, 5, 5, 5, 5, 5, 5, 5, 5, 5, 5, 5] 14 = FloatQ.nan := by
  constructor
  · apply (rsi_zero_loss [0, 1, 2, 3, 4, 5, 6, 7, 8, 9, 10, 11, 12, 13, 14]
      14 (by norm_num) (by norm_num)).1
    · norm_num [avgLossAt, lossAt, List.range_succ, max_def]
    · norm_num [avgGainAt, gainAt, List.range_succ, max_def]
  · exact ((rsi_zero_loss [5, 5, 5, 5, 5, 5, 5, 5, 5, 5, 5, 5, 5, 5, 5]
      14 (by norm_num) (by norm_num)).2
      (by norm_num [avgGainAt, gainAt, List.range_succ, max_def])
      (by norm_num [avgLossAt, lossAt, List.range_succ, max_def])).1

/-- C10 (amended): a model appears in the issuance's prediction mapping
exactly when its adapter returned (did not raise), with its sequence kept
unchanged — so a raising adapter is excluded without aborting the issuance
and every other model still contributes, but an adapter returning an
empty or NaN-containing sequence is kept under its name, not excluded. -/
theorem model_failure_isolation {α : Type}
    (adapters : List (String × Option (List α))) (name : String)
    (l : List α) :
    ((name, l) ∈ modelPredictions adapters ↔ (name, some l) ∈ adapters) ∧
    (∀ nm : String, (∀ o, (nm, o) ∈ adapters → o = none) →
      ∀ l2 : List α, (nm, l2) ∉ modelPredictions adapters) := by
  have hmem : ∀ (nm : String) (l2 : List α),
      (nm, l2) ∈ modelPredictions adapters ↔ (nm, some l2) ∈ adapters := by
    intro nm l2
    rw [modelPredictions, List.mem_filterMap]
    constructor
    · rintro ⟨⟨n2, o2⟩, hin, hf⟩
      rcases o2 with _ | l3
      · simp at hf
      · simp only [Option.some.injEq, Prod.mk.injEq] at hf
        obtain ⟨rfl, rfl⟩ := hf
        exact hin
    · intro hin
      exact ⟨(nm, some l2), hin, rfl⟩
  refine ⟨hmem name l, ?_⟩
  intro nm hall l2 hin
  have h1 := (hmem nm l2).mp hin
  have h2 := hall (some l2) h1
  simp at h2

/-- Witness for C10: a returned model is present in the mapping. -/
theorem model_failure_isolation_witness :
    ("b", ([] : List FloatQ)) ∈ modelPredictions
      [("a", some [FloatQ.fin 1]), ("b", some ([] : List FloatQ)),
       ("c", none)] :=
  (model_failure_isolation
    [("a", some [FloatQ.fin 1]), ("b", some ([] : List FloatQ)),
     ("c", none)] "b" []).1.mpr (by simp)

/-- Counterexample to C10 as stated: an adapter returning the empty
sequence and one returning a NaN-containing sequence are not excluded —
their names stay in the prediction mapping; only the raising adapter
`"c"` is absent. -/
theorem empty_forecast_not_excluded :
    modelPredictions
        [("a", some [FloatQ.fin 1]), ("b", some ([] : List FloatQ)),
         ("c", (none : Option (List FloatQ))), ("d", some [FloatQ.nan])] =
      [("a", [FloatQ.fin 1]), ("b", []), ("d", [FloatQ.nan])] ∧
    ("b", ([] : List FloatQ)) ∈ modelPredictions
      [("a", some [FloatQ.fin 1]), ("b", some ([] : List FloatQ)),
       ("c", (none : Option (List FloatQ))), ("d", some [FloatQ.nan])] ∧
    ("d", [FloatQ.nan]) ∈ modelPredictions
      [("a", some [FloatQ.fin 1]), ("b", some ([] : List FloatQ)),
       ("c", (none : Option (List FloatQ))), ("d", some [FloatQ.nan])] := by
  decide

end DailyPrediction
